import Mathlib

/-!
Verification of the vehicle-routing construction and dispatch layer of the
optifleet repository: a shallow embedding of `parse_request`, the partition
logic and FORCE_PER_VEHICLE loop of the `/optimize` handler (src/app.py),
and `solve_vrptw` (src/core/solver/vrptw.py), together with theorems about
the specified properties.

Python floats are embedded as `Rat`, Python ints as `Int`, Python dicts as
insertion-ordered association lists with overwrite-on-insert semantics,
and fallible code as `Option`/`Except`.
-/

set_option autoImplicit false

namespace OptiFleet

/-! ### Python dict emulation

A Python `dict` is an insertion-ordered association list whose keys are
unique; inserting an existing key overwrites its value in place. -/

/-- Python dict: insertion-ordered key/value list. -/
abbrev PyDict (α : Type) := List (String × α)

/-- `d.get(k)` — `None` when the key is absent. -/
def pyGet? {α : Type} : PyDict α → String → Option α
  | [], _ => none
  | p :: d, k => if p.1 = k then some p.2 else pyGet? d k

/-- `k in d`. -/
def pyHasKey {α : Type} : PyDict α → String → Bool
  | [], _ => false
  | p :: d, k => if p.1 = k then true else pyHasKey d k

/-- `d[k] = v`: overwrite in place when the key exists, else append. -/
def pyInsert {α : Type} (d : PyDict α) (k : String) (v : α) : PyDict α :=
  if pyHasKey d k then d.map (fun p => if p.1 = k then (p.1, v) else p)
  else d ++ [(k, v)]

/-- A dict built from a list of pairs (later pairs overwrite earlier ones),
as a Python dict comprehension does. -/
def dictOfPairs {α : Type} (ps : List (String × α)) : PyDict α :=
  ps.foldl (fun d p => pyInsert d p.1 p.2) []

/-- `d.setdefault(k, []).append(x)` (also the behaviour of
`d[k].append(x)` when the key is known to be present). -/
def pyAppendAt {α : Type} (d : PyDict (List α)) (k : String) (x : α) :
    PyDict (List α) :=
  if pyHasKey d k then
    d.map (fun p => if p.1 = k then (p.1, p.2 ++ [x]) else p)
  else d ++ [(k, [x])]

/-! ### Python numeric helpers -/

/-- Python `round(q)`: round half to even, returning an integer.  Written
in integer arithmetic on the reduced fraction: with `f = ⌊q⌋` the
fractional part `q - f` compares to `1/2` exactly as
`2*(q.num - f*q.den)` compares to `q.den`. -/
def pyRound (q : Rat) : Int :=
  let f : Int := q.floor
  let t : Int := 2 * (q.num - f * (q.den : Int))
  if t < (q.den : Int) then f
  else if (q.den : Int) < t then f + 1
  else if f % 2 = 0 then f else f + 1

/-- Python `round(q, n)`: round half to even at `n` decimal digits, i.e.
`pyRound (q * 10^n) / 10^n` with the scaling written on the fraction. -/
def pyRoundTo (n : Nat) (q : Rat) : Rat :=
  Rat.divInt (pyRound (Rat.divInt (q.num * ((10 ^ n : Nat) : Int)) (q.den : Int)))
    ((10 ^ n : Nat) : Int)

/-! ### `hhmm_to_minutes` (src/core/models.py)

```python
def hhmm_to_minutes(hhmm: str) -> int:
    h, m = hhmm.split(':')
    return int(h)*60 + int(m)
```

`split(':')` must yield exactly two parts and `int()` must parse, otherwise
Python raises; both failure modes are `none` here. -/

/-- Split a character list on `':'`. -/
def splitColon : List Char → List (List Char)
  | [] => [[]]
  | c :: rest =>
    let r := splitColon rest
    if c = ':' then [] :: r
    else
      match r with
      | g :: gs => (c :: g) :: gs
      | [] => [[c]]

/-- Decimal digit parse of a nonempty character list, as Python `int()`. -/
def digitsToNat? : List Char → Option Nat
  | [] => none
  | [c] => if c.isDigit then some (c.toNat - '0'.toNat) else none
  | c :: rest =>
    if c.isDigit then
      (digitsToNat? rest).map
        (fun lo => (c.toNat - '0'.toNat) * 10 ^ rest.length + lo)
    else none

/-- Python `int(s)` on a (possibly negative) decimal string. -/
def charsToInt? : List Char → Option Int
  | '-' :: rest => (digitsToNat? rest).map (fun n => -(n : Int))
  | cs => (digitsToNat? cs).map (fun n => (n : Int))

def hhmm_to_minutes (hhmm : String) : Option Int :=
  match splitColon hhmm.toList with
  | [h, m] => do
    let hi ← charsToInt? h
    let mi ← charsToInt? m
    pure (hi * 60 + mi)
  | _ => none

/-- Python `str.strip()`. -/
def pyStrip (s : String) : String :=
  String.mk (((s.toList.dropWhile Char.isWhitespace).reverse.dropWhile
    Char.isWhitespace).reverse)

/-! ### Domain model (src/core/models.py) -/

structure Location where
  lat : Rat
  lon : Rat
deriving DecidableEq, Repr

structure TimeWindow where
  start_min : Int
  end_min : Int
deriving DecidableEq, Repr

structure Depot where
  loc : Location
  window : TimeWindow
deriving DecidableEq, Repr

structure Vehicle where
  id : String
  capacity : Int
  start_min : Int
  end_min : Int
  speed_factor : Rat
deriving DecidableEq, Repr

structure Stop where
  id : String
  loc : Location
  demand : Int
  service_min : Int
  window : Option TimeWindow
deriving DecidableEq, Repr

structure OptimizeRequest where
  depot : Depot
  vehicles : List Vehicle
  stops : List Stop
  objective : String
  include_tolls : Bool
deriving DecidableEq, Repr

/-- Placeholder used only for out-of-range list accesses that Python would
turn into an `IndexError`. -/
def dummyStop : Stop :=
  { id := "", loc := { lat := 0, lon := 0 }, demand := 0, service_min := 0,
    window := none }

/-! ### Inbound JSON payload

Typed view of the `/optimize` request body: absent optional JSON keys are
`none`. -/

structure RawDepot where
  lat : Option Rat
  lon : Option Rat
  address : Option String
  endereco : Option String
  start_window : Option String
  end_window : Option String
deriving DecidableEq, Repr

structure RawVehicle where
  id : String
  capacity : Option Int
  start_time : Option String
  end_time : Option String
  speed_factor : Option Rat
deriving DecidableEq, Repr

structure RawStop where
  id : Option String
  lat : Option Rat
  lon : Option Rat
  address : Option String
  endereco : Option String
  demand : Option Int
  service_min : Option Int
  tw_start : Option String
  tw_end : Option String
  vehicle : Option String
deriving DecidableEq, Repr

structure RawPayload where
  depot : RawDepot
  vehicles : List RawVehicle
  stops : List RawStop
  objective : Option String
  include_tolls : Option Bool
deriving DecidableEq, Repr

/-- Python truthiness of an optional number: `None` and `0` are falsy. -/
def truthyNum : Option Rat → Bool
  | none => false
  | some x => x != 0

/-- Python truthiness of an optional string: `None` and `""` are falsy. -/
def truthyStr : Option String → Bool
  | none => false
  | some s => s != ""

/-- `a or b` on an optional string under Python truthiness. -/
def pyOrStr (a : Option String) (b : String) : String :=
  match a with
  | some s => if s = "" then b else s
  | none => b

def toExcept {α : Type} (msg : String) : Option α → Except String α
  | none => .error msg
  | some a => .ok a

/-! ### `parse_request` (src/app.py)

Failures (`raise ValueError`, plus the `ValueError` thrown by
`hhmm_to_minutes`/`int()` on malformed time strings) become
`Except.error`; the caller turns any of them into a `bad_request`
response.  The external geocoder `rp.geocode` is a parameter. -/

def parseDepot (geocode : String → Option (Rat × Rat)) (depot : RawDepot) :
    Except String Depot := do
  let depot_addr := pyStrip (pyOrStr depot.address (pyOrStr depot.endereco ""))
  let dll ←
    if !truthyNum depot.lat || !truthyNum depot.lon then
      if depot_addr = "" then
        Except.error "Depósito sem coordenadas e sem endereço."
      else
        match geocode depot_addr with
        | none =>
          Except.error ("Não foi possível geocodificar o depósito: " ++ depot_addr)
        | some g => pure g
    else pure (depot.lat.getD 0, depot.lon.getD 0)
  let sw ← toExcept "Horário inválido." (hhmm_to_minutes (depot.start_window.getD "00:00"))
  let ew ← toExcept "Horário inválido." (hhmm_to_minutes (depot.end_window.getD "23:59"))
  pure { loc := { lat := dll.1, lon := dll.2 },
         window := { start_min := sw, end_min := ew } }

def parseVehicle (v : RawVehicle) : Except String Vehicle := do
  let st ← toExcept "Horário inválido." (hhmm_to_minutes (v.start_time.getD "00:00"))
  let en ← toExcept "Horário inválido." (hhmm_to_minutes (v.end_time.getD "23:59"))
  pure { id := v.id, capacity := v.capacity.getD 999999,
         start_min := st, end_min := en,
         speed_factor := v.speed_factor.getD 1 }

def parseVehicles : List RawVehicle → Except String (List Vehicle)
  | [] => .ok []
  | v :: rest => do
    let pv ← parseVehicle v
    let more ← parseVehicles rest
    pure (pv :: more)

/-- `s.get('id', f'S{idx}')` as used in stop error messages. -/
def stopIdMsg (s : RawStop) (idx : Nat) : String :=
  s.id.getD ("S" ++ toString idx)

def parseStop (geocode : String → Option (Rat × Rat)) (idx : Nat)
    (s : RawStop) : Except String Stop := do
  let s_addr := pyStrip (pyOrStr s.address (pyOrStr s.endereco ""))
  let latlon? : Option (Rat × Rat) :=
    match s.lat, s.lon with
    | some a, some b => some (a, b)
    | _, _ => none
  let ll ←
    match latlon? with
    | some p => pure p
    | none =>
      if s_addr = "" then
        Except.error ("Parada " ++ stopIdMsg s idx ++ " sem lat/lon e sem endereço.")
      else
        match geocode s_addr with
        | none =>
          Except.error ("Não foi possível geocodificar a parada "
            ++ stopIdMsg s idx ++ ": " ++ s_addr)
        | some g => pure g
  let window ←
    if truthyStr s.tw_start && truthyStr s.tw_end then do
      let a ← toExcept "Horário inválido." (hhmm_to_minutes (s.tw_start.getD ""))
      let b ← toExcept "Horário inválido." (hhmm_to_minutes (s.tw_end.getD ""))
      pure (some ({ start_min := a, end_min := b } : TimeWindow))
    else pure none
  pure { id := pyOrStr s.id ("S" ++ toString idx),
         loc := { lat := ll.1, lon := ll.2 },
         demand := s.demand.getD 0, service_min := s.service_min.getD 0,
         window := window }

/-- `for idx, s in enumerate(payload["stops"], start=1)`. -/
def parseStops (geocode : String → Option (Rat × Rat)) :
    Nat → List RawStop → Except String (List Stop)
  | _, [] => .ok []
  | idx, s :: rest => do
    let st ← parseStop geocode idx s
    let more ← parseStops geocode (idx + 1) rest
    pure (st :: more)

def parse_request (geocode : String → Option (Rat × Rat))
    (payload : RawPayload) : Except String OptimizeRequest := do
  let d ← parseDepot geocode payload.depot
  let vehicles ← parseVehicles payload.vehicles
  let stops ← parseStops geocode 1 payload.stops
  pure { depot := d, vehicles := vehicles, stops := stops,
         objective := payload.objective.getD "min_cost",
         include_tolls := payload.include_tolls.getD true }

/-! ### `solve_vrptw` (src/core/solver/vrptw.py)

The OR-Tools search is a collaborator: `routing.SolveWithParameters`
either produces a solution (abstracted as the per-vehicle index chains the
extraction `while` loop walks, plus the manager's `IndexToNode` map) or
nothing.  Everything around the search — the arc-cost callback handed to
`SetArcCostEvaluatorOfAllVehicles` and the route-extraction loop — is
embedded from the source. -/

structure VehDef where
  id : String
  capacity : Int
  start_min : Int
  end_min : Int
deriving DecidableEq, Repr

structure SolveInput where
  time_matrix_min : List (List Rat)
  dist_matrix_km : List (List Rat)
  depot_index : Nat
  service_times : List Int
  demands : List Int
  time_windows : List (Int × Int)
  vehicles : List VehDef
  objective : String
deriving DecidableEq, Repr

structure SolveRoute where
  vehicle_id : String
  nodes : List Nat
  time_min : Rat
  dist_km : Rat
deriving DecidableEq, Repr

inductive SolveResult where
  | infeasible
  | ok (routes : List SolveRoute) (total_time_min : Rat) (total_dist_km : Rat)
deriving DecidableEq, Repr

/-- Two-dimensional list access `m[i][j]`. -/
def get2 (m : List (List Rat)) (i j : Nat) : Rat := (m.getD i []).getD j 0

/-- `time_callback`: `int(round(time_matrix_min[i][j]))`. -/
def time_callback (inp : SolveInput) (i j : Nat) : Int :=
  pyRound (get2 inp.time_matrix_min i j)

/-- `routing.SetArcCostEvaluatorOfAllVehicles(transit_cb)`: the arc cost
evaluated for every vehicle is the rounded time-matrix entry — the
`objective` argument of `solve_vrptw` is never consulted. -/
def arcCostEvaluator (inp : SolveInput) : Nat → Nat → Int :=
  time_callback inp

/-- Claim C6's reading of the arc cost, written from the spec's words for
comparison with `arcCostEvaluator`: on `objective=min_distance` the
distance matrix is the optimization criterion, otherwise the time matrix. -/
def claimArcCost (inp : SolveInput) : Nat → Nat → Int :=
  if inp.objective = "min_distance" then
    fun i j => pyRound (get2 inp.dist_matrix_km i j)
  else
    fun i j => pyRound (get2 inp.time_matrix_min i j)

/-- One vehicle's walk through the returned assignment: the internal
indices for which the extraction `while` loop body runs (starting at
`routing.Start(v)`), and the End index that terminates the walk. -/
structure VehiclePath where
  visited : List Nat
  endIdx : Nat

/-- Abstracted OR-Tools solution: one walk per vehicle plus the manager's
`IndexToNode` mapping. -/
structure RawSolution where
  paths : List VehiclePath
  indexToNode : Nat → Nat

/-- The matrix accumulation of the extraction loop: entries over
consecutive visited nodes.  The leg into the final End index is not
accumulated (`if not routing.IsEnd(nxt_idx)`), exactly as in the source. -/
def legSum (m : List (List Rat)) : List Nat → Rat
  | a :: b :: rest => get2 m a b + legSum m (b :: rest)
  | _ => 0

def extractRoute1 (inp : SolveInput) (sol : RawSolution) (v : VehDef)
    (p : VehiclePath) : SolveRoute :=
  let visNodes := p.visited.map sol.indexToNode
  { vehicle_id := v.id,
    nodes := visNodes ++ [sol.indexToNode p.endIdx],
    time_min := pyRoundTo 1 (legSum inp.time_matrix_min visNodes),
    dist_km := pyRoundTo 3 (legSum inp.dist_matrix_km visNodes) }

def extractRoutes (inp : SolveInput) (sol : RawSolution) : SolveResult :=
  let pairs := inp.vehicles.zip sol.paths
  let routes := pairs.map (fun pr => extractRoute1 inp sol pr.1 pr.2)
  let total_time :=
    (pairs.map (fun pr =>
      legSum inp.time_matrix_min (pr.2.visited.map sol.indexToNode))).sum
  let total_km :=
    (pairs.map (fun pr =>
      legSum inp.dist_matrix_km (pr.2.visited.map sol.indexToNode))).sum
  .ok routes (pyRoundTo 1 total_time) (pyRoundTo 3 total_km)

/-- `solve_vrptw` with the bounded search abstracted as its outcome:
`none` means no feasible solution was found within the time budget, and
the function returns `{"status": "infeasible"}` rather than raising. -/
def solve_vrptw (inp : SolveInput) (search : Option RawSolution) : SolveResult :=
  match search with
  | none => .infeasible
  | some sol => extractRoutes inp sol

/-! ### The `/optimize` handler (src/app.py), FORCE_PER_VEHICLE branch

`FORCE_PER_VEHICLE = True` is a literal in the handler, so only that
branch is reachable.  The travel-matrix provider and `solve_vrptw` are
parameters. -/

/-- `slice_and_solve`'s construction of the solver input for one subset. -/
def slice_and_solve (req : OptimizeRequest) (time_m_all dist_m_all : List (List Rat))
    (stops_subset : List Stop) (vehicles_subset : List VehDef) : SolveInput :=
  let idx_map : List Nat := 0 :: stops_subset.map (fun s => 1 + req.stops.indexOf s)
  { time_matrix_min := idx_map.map (fun ia => idx_map.map (fun ib => get2 time_m_all ia ib)),
    dist_matrix_km := idx_map.map (fun ia => idx_map.map (fun ib => get2 dist_m_all ia ib)),
    depot_index := 0,
    service_times := 0 :: stops_subset.map (·.service_min),
    demands := 0 :: stops_subset.map (·.demand),
    time_windows :=
      (req.depot.window.start_min, req.depot.window.end_min) ::
        stops_subset.map (fun s =>
          match s.window with
          | some w => (w.start_min, w.end_min)
          | none => (req.depot.window.start_min, req.depot.window.end_min)),
    vehicles := vehicles_subset,
    objective := req.objective }

/-- `id_to_vehicle = {rs.get("id"): rs.get("vehicle") for rs in raw_stops if rs.get("id")}`. -/
def idToVehicle (raw_stops : List RawStop) : PyDict (Option String) :=
  dictOfPairs (raw_stops.filterMap (fun rs =>
    if truthyStr rs.id then some (rs.id.getD "", rs.vehicle) else none))

/-- `vcode = id_to_vehicle.get(s.id)`, kept only when truthy (`if vcode:`). -/
def tagOf (idv : PyDict (Option String)) (s : Stop) : Option String :=
  match pyGet? idv s.id with
  | some (some vc) => if vc = "" then none else some vc
  | _ => none

/-- The loop over `req.stops` that records explicit assignments into
`stops_by_vehicle` and sets `has_assignment`. -/
def assignGo (idv : PyDict (Option String)) :
    List Stop → Bool → PyDict (List Stop) → Bool × PyDict (List Stop)
  | [], has, d => (has, d)
  | s :: rest, has, d =>
    match tagOf idv s with
    | some vc => assignGo idv rest true (pyAppendAt d vc s)
    | none => assignGo idv rest has d

/-- The distribution loop of `rr_partition`:
`buckets[vid_list[i % len(vid_list)]].append(s)`. -/
def rrGo : List Stop → List String → Nat → PyDict (List Stop) → PyDict (List Stop)
  | [], _, _, acc => acc
  | s :: rest, vids, i, acc =>
    rrGo rest vids (i + 1) (pyAppendAt acc (vids.getD (i % vids.length) "") s)

def rr_partition (stops : List Stop) (vid_list : List String) : PyDict (List Stop) :=
  let buckets := dictOfPairs (vid_list.map (fun vid => (vid, ([] : List Stop))))
  if stops.isEmpty then buckets else rrGo stops vid_list 0 buckets

/-- The grouping `stops_by_vehicle` the FORCE_PER_VEHICLE branch solves:
explicit assignments when any stop carries one, else round-robin. -/
def stopsByVehicle (req : OptimizeRequest) (raw_stops : List RawStop) :
    PyDict (List Stop) :=
  let idv := idToVehicle raw_stops
  let asg := assignGo idv req.stops false []
  if asg.1 then asg.2 else rr_partition req.stops (req.vehicles.map (·.id))

/-- `veh_by_id = {v.id: v for v in req.vehicles}`. -/
def vehById (vehicles : List Vehicle) : PyDict Vehicle :=
  dictOfPairs (vehicles.map (fun v => (v.id, v)))

/-- The subset each vehicle's solve receives
(`subset = stops_by_vehicle.get(vid, [])`), in `veh_by_id` order. -/
def perVehicleSubsets (req : OptimizeRequest) (raw_stops : List RawStop) :
    List (String × List Stop) :=
  let sbv := stopsByVehicle req raw_stops
  (vehById req.vehicles).map (fun p => (p.1, (pyGet? sbv p.1).getD []))

structure RouteOut where
  vehicle_id : String
  nodes : List Nat
  nodes_abs : List Nat
  time_min : Rat
  dist_km : Rat
deriving DecidableEq, Repr

def dummyRoute : RouteOut :=
  { vehicle_id := "", nodes := [], nodes_abs := [], time_min := 0, dist_km := 0 }

def vehDef (v : Vehicle) : VehDef :=
  { id := v.id, capacity := v.capacity, start_min := v.start_min, end_min := v.end_min }

/-- `0 if n == 0 else (1 + req.stops.index(subset[n - 1]))`. -/
def absNode (req : OptimizeRequest) (subset : List Stop) (n : Nat) : Nat :=
  if n = 0 then 0 else 1 + req.stops.indexOf (subset.getD (n - 1) dummyStop)

/-- Post-processing of one solver route inside the FORCE_PER_VEHICLE loop:
set `vehicle_id`, compute `nodes_abs`, overwrite `nodes` with it. -/
def postRoute (req : OptimizeRequest) (subset : List Stop) (v : Vehicle)
    (r : SolveRoute) : RouteOut :=
  let abs_nodes := r.nodes.map (absNode req subset)
  { vehicle_id := v.id, nodes := abs_nodes, nodes_abs := abs_nodes,
    time_min := r.time_min, dist_km := r.dist_km }

/-- The route appended for a vehicle whose subset is empty. -/
def trivialRoute (vid : String) : RouteOut :=
  { vehicle_id := vid, nodes := [0, 0], nodes_abs := [0, 0],
    time_min := 0, dist_km := 0 }

/-- The `for vid, v in veh_by_id.items()` loop: a non-`ok` solver result
returns immediately with that result as a 400 body (`Except.error`);
otherwise routes and totals accumulate. -/
def forceLoop (solveFn : SolveInput → SolveResult) (req : OptimizeRequest)
    (tAll dAll : List (List Rat)) (sbv : PyDict (List Stop)) :
    List (String × Vehicle) → Except SolveResult (List RouteOut × Rat × Rat)
  | [] => .ok ([], 0, 0)
  | (vid, v) :: rest =>
    let subset := (pyGet? sbv vid).getD []
    if subset.isEmpty then
      match forceLoop solveFn req tAll dAll sbv rest with
      | .error r => .error r
      | .ok (rs, tt, td) => .ok (trivialRoute v.id :: rs, tt, td)
    else
      match solveFn (slice_and_solve req tAll dAll subset [vehDef v]) with
      | .infeasible => .error .infeasible
      | .ok rroutes _ _ =>
        match forceLoop solveFn req tAll dAll sbv rest with
        | .error r => .error r
        | .ok (rs, tt, td) =>
          let pr := rroutes.map (postRoute req subset v)
          .ok (pr ++ rs, (pr.map (·.time_min)).sum + tt, (pr.map (·.dist_km)).sum + td)

/-- The handler's outcome, keyed by the HTTP status it is sent with. -/
inductive OptimizeResponse where
  | badRequest (msg : String)
  | providerError (msg : String)
  | solveFailed (r : SolveResult)
  | ok (routes : List RouteOut) (total_time_min total_dist_km : Rat)
deriving DecidableEq, Repr

def httpStatus : OptimizeResponse → Nat
  | .badRequest _ => 400
  | .providerError _ => 500
  | .solveFailed _ => 400
  | .ok _ _ _ => 200

/-- The post-parse core of the handler: partition, per-vehicle solves,
result stitching. -/
def optimizeCore (solveFn : SolveInput → SolveResult) (req : OptimizeRequest)
    (raw_stops : List RawStop) (time_m_all dist_m_all : List (List Rat)) :
    OptimizeResponse :=
  match forceLoop solveFn req time_m_all dist_m_all
      (stopsByVehicle req raw_stops) (vehById req.vehicles) with
  | .error r => .solveFailed r
  | .ok (routes, tt, td) => .ok routes tt td

/-- One cell of the provider's travel matrix. -/
structure Cell where
  minutes : Rat
  km : Rat

/-- The full `/optimize` handler: parse (failure → 400), travel matrix
(failure → 500), then the FORCE_PER_VEHICLE core. -/
def optimize (geocode : String → Option (Rat × Rat))
    (travel_matrix : Except String (Nat → Nat → Cell))
    (solveFn : SolveInput → SolveResult) (payload : RawPayload) :
    OptimizeResponse :=
  match parse_request geocode payload with
  | .error e => .badRequest e
  | .ok req =>
    match travel_matrix with
    | .error e => .providerError ("Erro no provedor de rotas: " ++ e)
    | .ok m =>
      let n_all := 1 + req.stops.length
      let time_m_all := (List.range n_all).map
        (fun i => (List.range n_all).map (fun j => (m i j).minutes))
      let dist_m_all := (List.range n_all).map
        (fun i => (List.range n_all).map (fun j => (m i j).km))
      optimizeCore solveFn req payload.stops time_m_all dist_m_all

/-- Erase the one vehicle field `solve_vrptw` never receives. -/
def scrubV (v : Vehicle) : Vehicle := { v with speed_factor := 1 }

/-! ### Dict lemmas -/

lemma pyGet?_cons {α : Type} (p : String × α) (d : PyDict α) (k : String) :
    pyGet? (p :: d) k = if p.1 = k then some p.2 else pyGet? d k := rfl

lemma pyHasKey_cons {α : Type} (p : String × α) (d : PyDict α) (k : String) :
    pyHasKey (p :: d) k = if p.1 = k then true else pyHasKey d k := rfl

lemma pyHasKey_isSome {α : Type} (d : PyDict α) (k : String) :
    pyHasKey d k = (pyGet? d k).isSome := by
  induction d with
  | nil => rfl
  | cons p rest ih =>
    rw [pyHasKey_cons, pyGet?_cons]
    by_cases h : p.1 = k <;> simp [h, ih]

lemma pyGet?_map_upd {α β : Type} (k : String) (f : α → β) (g : α → α)
    (hf : ∀ a, f (g a) = f a) :
    ∀ (d : PyDict α) (k' : String),
      pyGet? (d.map (fun p => if p.1 = k then (p.1, g p.2) else p)) k'
        = if k' = k then (pyGet? d k').map g else pyGet? d k'
  | [], k' => by by_cases h : k' = k <;> simp [h, pyGet?]
  | p :: rest, k' => by
    by_cases hp : p.1 = k
    · by_cases h : k' = k
      · have hpk' : p.1 = k' := by rw [hp, h]
        simp [pyGet?_cons, hp, hpk', h]
      · have hp' : ¬ p.1 = k' := by rw [hp]; exact fun hh => h hh.symm
        have hkk' : ¬ k = k' := fun hh => h hh.symm
        simp [pyGet?_cons, hp, hp', h, hkk', pyGet?_map_upd k f g hf rest]
    · by_cases h2 : p.1 = k'
      · have hne : ¬ k' = k := by rw [← h2]; exact hp
        simp [pyGet?_cons, hp, h2, hne]
      · simp [pyGet?_cons, hp, h2, pyGet?_map_upd k f g hf rest]

lemma pyGet?_append {α : Type} (d1 d2 : PyDict α) (k : String) :
    pyGet? (d1 ++ d2) k
      = match pyGet? d1 k with
        | some v => some v
        | none => pyGet? d2 k := by
  induction d1 with
  | nil => rfl
  | cons p rest ih =>
    rw [List.cons_append, pyGet?_cons, pyGet?_cons]
    by_cases h : p.1 = k <;> simp [h, ih]

lemma pyGet?_none_of_not_hasKey {α : Type} (d : PyDict α) (k : String)
    (h : ¬ pyHasKey d k) : pyGet? d k = none := by
  have hs := pyHasKey_isSome d k
  cases hg : pyGet? d k with
  | none => rfl
  | some x => rw [hg] at hs; simp [hs] at h

lemma pyGet?_pyInsert {α : Type} (d : PyDict α) (k : String) (v : α)
    (k' : String) :
    pyGet? (pyInsert d k v) k' = if k' = k then some v else pyGet? d k' := by
  unfold pyInsert
  by_cases hk : pyHasKey d k
  · rw [if_pos hk]
    have base := pyGet?_map_upd (α := α) (β := Unit) k (fun _ => ())
      (fun _ => v) (fun _ => rfl) d k'
    rw [base]
    by_cases h : k' = k
    · subst h
      have hs := pyHasKey_isSome d k'
      cases hg : pyGet? d k' with
      | none => rw [hg] at hs; simp [hs] at hk
      | some x => simp [hg]
    · simp [h]
  · rw [if_neg hk, pyGet?_append]
    by_cases h : k' = k
    · subst h
      rw [pyGet?_none_of_not_hasKey d k' hk]
      simp [pyGet?_cons]
    · have hkk' : ¬ k = k' := fun hh => h hh.symm
      cases hg : pyGet? d k' with
      | none => simp [pyGet?, pyGet?_cons, h, hkk']
      | some x => simp [h]

lemma pyGet?_pyAppendAt {α : Type} (d : PyDict (List α)) (k : String)
    (x : α) (k' : String) :
    pyGet? (pyAppendAt d k x) k'
      = if k' = k then some ((pyGet? d k).getD [] ++ [x])
        else pyGet? d k' := by
  unfold pyAppendAt
  by_cases hk : pyHasKey d k
  · rw [if_pos hk]
    have base := pyGet?_map_upd (α := List α) (β := Unit) k (fun _ => ())
      (fun l => l ++ [x]) (fun _ => rfl) d k'
    rw [base]
    by_cases h : k' = k
    · subst h
      have hs := pyHasKey_isSome d k'
      cases hg : pyGet? d k' with
      | none => rw [hg] at hs; simp [hs] at hk
      | some l => simp [hg]
    · simp [h]
  · rw [if_neg hk, pyGet?_append]
    by_cases h : k' = k
    · subst h
      rw [pyGet?_none_of_not_hasKey d k' hk]
      simp [pyGet?_cons]
    · have hkk' : ¬ k = k' := fun hh => h hh.symm
      cases hg : pyGet? d k' with
      | none => simp [pyGet?, pyGet?_cons, h, hkk']
      | some l => simp [h]

lemma pyGet?_dictOfPairs_constStep {α : Type} (x : α) (k : String) :
    ∀ (vids : List String) (acc : PyDict α),
      pyGet? (List.foldl (fun d p => pyInsert d p.1 p.2) acc
          (vids.map (fun vid => (vid, x)))) k
        = if k ∈ vids then some x else pyGet? acc k
  | [], acc => by simp
  | vid :: rest, acc => by
    simp only [List.map_cons, List.foldl_cons]
    rw [pyGet?_dictOfPairs_constStep x k rest]
    by_cases hm : k ∈ rest
    · simp [hm, List.mem_cons]
    · rw [if_neg hm, pyGet?_pyInsert]
      by_cases h : k = vid
      · simp [h, List.mem_cons]
      · simp [h, hm, List.mem_cons]

lemma pyGet?_dictOfPairs_const {α : Type} (vids : List String) (x : α)
    (k : String) :
    pyGet? (dictOfPairs (vids.map (fun vid => (vid, x)))) k
      = if k ∈ vids then some x else none := by
  unfold dictOfPairs
  rw [pyGet?_dictOfPairs_constStep]
  by_cases h : k ∈ vids <;> simp [h, pyGet?]

lemma pyHasKey_append {α : Type} (d1 d2 : PyDict α) (k : String) :
    pyHasKey (d1 ++ d2) k = (pyHasKey d1 k || pyHasKey d2 k) := by
  induction d1 with
  | nil => simp [pyHasKey]
  | cons p rest ih =>
    rw [List.cons_append, pyHasKey_cons, pyHasKey_cons]
    by_cases h : p.1 = k <;> simp [h, ih]

lemma foldl_pyInsert_fresh {α : Type} :
    ∀ (ps : List (String × α)) (acc : PyDict α),
      (∀ p ∈ ps, ¬ pyHasKey acc p.1) → (ps.map (·.1)).Nodup →
      List.foldl (fun d p => pyInsert d p.1 p.2) acc ps = acc ++ ps
  | [], acc, _, _ => by simp
  | p :: rest, acc, hfresh, hnd => by
    simp only [List.foldl_cons]
    have hp : ¬ pyHasKey acc p.1 = true := hfresh p (List.mem_cons_self p rest)
    have hins : pyInsert acc p.1 p.2 = acc ++ [p] := by
      unfold pyInsert; rw [if_neg hp]
    rw [hins]
    rw [List.map_cons, List.nodup_cons] at hnd
    have hrest : ∀ q ∈ rest, ¬ pyHasKey (acc ++ [p]) q.1 := by
      intro q hq
      rw [pyHasKey_append]
      simp only [Bool.or_eq_true, not_or]
      refine ⟨hfresh q (List.mem_cons_of_mem p hq), ?_⟩
      have hne : p.1 ≠ q.1 := by
        intro hh
        exact hnd.1 (hh ▸ List.mem_map_of_mem (·.1) hq)
      simp [pyHasKey, pyHasKey_cons, hne]
    rw [foldl_pyInsert_fresh rest (acc ++ [p]) hrest hnd.2]
    simp

lemma dictOfPairs_of_nodupKeys {α : Type} (ps : List (String × α))
    (h : (ps.map (·.1)).Nodup) : dictOfPairs ps = ps := by
  unfold dictOfPairs
  rw [foldl_pyInsert_fresh ps [] (by intro p _; simp [pyHasKey]) h]
  simp

/-! ### Concrete example inputs used by witnesses and counterexamples -/

def mkLoc : Location := { lat := 1, lon := 1 }

def mkDepot : Depot := { loc := mkLoc, window := { start_min := 0, end_min := 1439 } }

def mkVehicle (i : String) : Vehicle :=
  { id := i, capacity := 100, start_min := 0, end_min := 1439, speed_factor := 1 }

def mkStop (i : String) : Stop :=
  { id := i, loc := mkLoc, demand := 0, service_min := 0, window := none }

def mkRawStop (i : String) (veh : Option String) : RawStop :=
  { id := some i, lat := some 1, lon := some 1, address := none,
    endereco := none, demand := none, service_min := none, tw_start := none,
    tw_end := none, vehicle := veh }

def mkReq (vs : List Vehicle) (ss : List Stop) : OptimizeRequest :=
  { depot := mkDepot, vehicles := vs, stops := ss, objective := "min_cost",
    include_tolls := true }

/-! ### Claim C6 -/

/-- Solver input with `objective = "min_distance"` whose time and distance
matrices disagree on arc (0,1). -/
def c6Inp : SolveInput :=
  { time_matrix_min := [[0, 5], [5, 0]],
    dist_matrix_km := [[0, 7], [7, 0]],
    depot_index := 0, service_times := [0, 0], demands := [0, 0],
    time_windows := [(0, 1440), (0, 1440)],
    vehicles := [{ id := "V1", capacity := 100, start_min := 0, end_min := 1440 }],
    objective := "min_distance" }

/-- C6, counterexample: with `objective = "min_distance"` the arc cost
`solve_vrptw` installs for every vehicle is still the rounded time-matrix
entry (5), not the distance-matrix entry (7) the claim's exception clause
requires — `objective` is never consulted. -/
theorem c6_min_distance_counterexample :
    c6Inp.objective = "min_distance"
    ∧ arcCostEvaluator c6Inp 0 1 = 5
    ∧ claimArcCost c6Inp 0 1 = 7
    ∧ arcCostEvaluator c6Inp 0 1 ≠ claimArcCost c6Inp 0 1 := by
  refine ⟨rfl, by decide, by decide, by decide⟩

/-- C6, amended: in `solve_vrptw` the arc cost evaluated for every vehicle
equals the rounded time-matrix entry for that arc, for every value of
`objective` (including `min_distance`) and independently of the distance
matrix, which is used only for reporting; the `objective` parameter is
ignored. -/
theorem c6_arc_cost_is_time_entry (inp : SolveInput) (o : String)
    (dmat : List (List Rat)) (i j : Nat) :
    arcCostEvaluator inp i j = pyRound (get2 inp.time_matrix_min i j)
    ∧ arcCostEvaluator { inp with objective := o, dist_matrix_km := dmat } i j
        = arcCostEvaluator inp i j :=
  ⟨rfl, rfl⟩

/-! ### Claim C8 -/

/-- C8: a stop whose `window` is `null` gets the depot's time window
`[depot.window.start_min, depot.window.end_min]` handed to the solver for
its node (node `i + 1` for the `i`-th stop of the subset), not an
unconstrained interval. -/
theorem c8_null_window_inherits_depot (req : OptimizeRequest)
    (tAll dAll : List (List Rat)) (subset : List Stop) (vehs : List VehDef)
    (i : Nat) (hi : i < subset.length)
    (hw : (subset.getD i dummyStop).window = none) :
    (slice_and_solve req tAll dAll subset vehs).time_windows.getD (i + 1) (0, 0)
      = (req.depot.window.start_min, req.depot.window.end_min) := by
  simp only [slice_and_solve, List.getD_cons_succ]
  rw [List.getD_eq_getElem _ _ (by simpa using hi)]
  simp only [List.getElem_map]
  rw [List.getD_eq_getElem subset dummyStop hi] at hw
  rw [hw]

/-- Witness for C8 at a concrete subset. -/
theorem c8_witness :
    (0 < [mkStop "S1"].length ∧ ([mkStop "S1"].getD 0 dummyStop).window = none)
    ∧ (slice_and_solve (mkReq [mkVehicle "V1"] [mkStop "S1"]) [] [] [mkStop "S1"]
        []).time_windows.getD 1 (0, 0) = (0, 1439) :=
  ⟨⟨by decide, by decide⟩,
    c8_null_window_inherits_depot (mkReq [mkVehicle "V1"] [mkStop "S1"]) [] []
      [mkStop "S1"] [] 0 (by decide) (by decide)⟩

/-! ### Claim C5 -/

lemma forceLoop_error_of_nonempty (req : OptimizeRequest)
    (tAll dAll : List (List Rat)) (sbv : PyDict (List Stop)) :
    ∀ items : List (String × Vehicle),
      (∃ p ∈ items, ((pyGet? sbv p.1).getD []) ≠ []) →
      forceLoop (fun _ => SolveResult.infeasible) req tAll dAll sbv items
        = Except.error SolveResult.infeasible
  | [], h => by simp at h
  | (vid, v) :: rest, h => by
    by_cases hsub : ((pyGet? sbv vid).getD []) = []
    · have hrest : ∃ p ∈ rest, ((pyGet? sbv p.1).getD []) ≠ [] := by
        obtain ⟨p, hp, hpne⟩ := h
        rcases List.mem_cons.mp hp with rfl | hmem
        · exact absurd hsub hpne
        · exact ⟨p, hmem, hpne⟩
      simp only [forceLoop]
      rw [if_pos (by simpa [List.isEmpty_iff] using hsub)]
      rw [forceLoop_error_of_nonempty req tAll dAll sbv rest hrest]
    · simp only [forceLoop]
      rw [if_neg (by simpa [List.isEmpty_iff] using hsub)]

/-- C5: when the search finds no feasible solution within the budget,
`solve_vrptw` returns `status=infeasible` (it has no raising path), and
the optimize handler surfaces any non-`ok` solve result as an HTTP 400
response, never as a server error. -/
theorem c5_infeasible_is_http_400 (req : OptimizeRequest)
    (raw_stops : List RawStop) (tAll dAll : List (List Rat))
    (hne : ∃ p ∈ perVehicleSubsets req raw_stops, p.2 ≠ []) :
    (∀ inp : SolveInput, solve_vrptw inp none = SolveResult.infeasible)
    ∧ optimizeCore (fun _ => SolveResult.infeasible) req raw_stops tAll dAll
        = OptimizeResponse.solveFailed SolveResult.infeasible
    ∧ httpStatus (optimizeCore (fun _ => SolveResult.infeasible) req raw_stops
        tAll dAll) = 400 := by
  have hitems : ∃ p ∈ vehById req.vehicles,
      ((pyGet? (stopsByVehicle req raw_stops) p.1).getD []) ≠ [] := by
    obtain ⟨p, hp, hp2⟩ := hne
    unfold perVehicleSubsets at hp
    obtain ⟨q, hq, rfl⟩ := List.mem_map.mp hp
    exact ⟨q, hq, by simpa using hp2⟩
  have hloop := forceLoop_error_of_nonempty req tAll dAll
    (stopsByVehicle req raw_stops) (vehById req.vehicles) hitems
  refine ⟨fun _ => rfl, ?_, ?_⟩ <;> simp [optimizeCore, hloop, httpStatus]

/-- Witness for C5 at a concrete request with one nonempty subset. -/
theorem c5_witness :
    (∃ p ∈ perVehicleSubsets (mkReq [mkVehicle "V1"] [mkStop "S1"])
        [mkRawStop "S1" none], p.2 ≠ [])
    ∧ optimizeCore (fun _ => SolveResult.infeasible)
        (mkReq [mkVehicle "V1"] [mkStop "S1"]) [mkRawStop "S1" none] [] []
        = OptimizeResponse.solveFailed SolveResult.infeasible :=
  ⟨by decide,
    (c5_infeasible_is_http_400 (mkReq [mkVehicle "V1"] [mkStop "S1"])
      [mkRawStop "S1" none] [] [] (by decide)).2.1⟩

/-! ### Claim C1 -/

def c1Req : OptimizeRequest :=
  mkReq [mkVehicle "V1", mkVehicle "V2"] [mkStop "S1", mkStop "S2"]

def c1RawStops : List RawStop :=
  [mkRawStop "S1" (some "V1"), mkRawStop "S2" none]

/-- C1, failing input: two vehicles, stop S1 tagged `vehicle="V1"`, stop S2
untagged.  Because one stop carries a tag, `has_assignment` is set and the
round-robin fallback is skipped, so the untagged S2 lands in no vehicle's
subset: the partition does not cover the stop list, contradicting the
claimed invariant exactly in its "only some stops tagged" case. -/
theorem c1_untagged_stop_dropped :
    perVehicleSubsets c1Req c1RawStops = [("V1", [mkStop "S1"]), ("V2", [])]
    ∧ ¬ (((perVehicleSubsets c1Req c1RawStops).flatMap (·.2)).Perm c1Req.stops)
    ∧ mkStop "S2" ∈ c1Req.stops
    ∧ ∀ p ∈ perVehicleSubsets c1Req c1RawStops, mkStop "S2" ∉ p.2 := by
  decide

/-! ### Claim C2 -/

def c2Payload : RawPayload :=
  { depot := { lat := some 1, lon := some 1, address := none, endereco := none,
               start_window := none, end_window := none },
    vehicles := [{ id := "V1", capacity := none, start_time := none,
                   end_time := none, speed_factor := none }],
    stops := [mkRawStop "S1" (some "V9")],
    objective := none, include_tolls := none }

def c2Matrix : Except String (Nat → Nat → Cell) :=
  Except.ok (fun _ _ => { minutes := 1, km := 1 })

/-- C2, failing input: the single stop is tagged `vehicle="V9"` and `V9` is
not among the request's vehicles.  The handler does not fail: it answers
HTTP 200 with `status=ok`, a trivial route for V1, and the V9-tagged stop
silently dropped — no `UnknownVehicleError`/`bad_request` is produced (that
check exists only in the unreachable non-FORCE_PER_VEHICLE branch). -/
theorem c2_unknown_vehicle_not_rejected :
    optimize (fun _ => none) c2Matrix (fun _ => SolveResult.infeasible) c2Payload
      = OptimizeResponse.ok [trivialRoute "V1"] 0 0
    ∧ httpStatus (optimize (fun _ => none) c2Matrix
        (fun _ => SolveResult.infeasible) c2Payload) = 200 := by
  decide

/-! ### Claim C9 -/

def dummyRawVehicle : RawVehicle :=
  { id := "", capacity := none, start_time := none, end_time := none,
    speed_factor := none }

def dummyVehicle : Vehicle :=
  { id := "", capacity := 0, start_min := 0, end_min := 0, speed_factor := 1 }

lemma hhmm_0000 : hhmm_to_minutes "00:00" = some 0 := by decide

lemma hhmm_2359 : hhmm_to_minutes "23:59" = some 1439 := by decide

lemma except_bind_ok {α β : Type} (x : Except String α)
    (f : α → Except String β) (b : β) (h : (x >>= f) = Except.ok b) :
    ∃ a, x = Except.ok a ∧ f a = Except.ok b := by
  cases x with
  | error e => simp [Bind.bind, Except.bind] at h
  | ok a => exact ⟨a, rfl, by simpa [Bind.bind, Except.bind] using h⟩

lemma parseVehicle_fields (v : RawVehicle) (pv : Vehicle)
    (h : parseVehicle v = Except.ok pv) :
    pv.id = v.id
    ∧ pv.capacity = v.capacity.getD 999999
    ∧ (v.start_time = none → pv.start_min = 0)
    ∧ (v.end_time = none → pv.end_min = 1439)
    ∧ pv.speed_factor = v.speed_factor.getD 1 := by
  simp only [parseVehicle] at h
  obtain ⟨st, hst, h2⟩ := except_bind_ok _ _ _ h
  obtain ⟨en, hen, h3⟩ := except_bind_ok _ _ _ h2
  have hpv : pv = { id := v.id, capacity := v.capacity.getD 999999,
                    start_min := st, end_min := en,
                    speed_factor := v.speed_factor.getD 1 } := by
    simpa [pure, Except.pure] using h3.symm
  subst hpv
  refine ⟨rfl, rfl, ?_, ?_, rfl⟩
  · intro hnone
    rw [hnone] at hst
    simp only [Option.getD_none] at hst
    rw [hhmm_0000] at hst
    have : (0 : Int) = st := by simpa [toExcept] using hst
    exact this.symm
  · intro hnone
    rw [hnone] at hen
    simp only [Option.getD_none] at hen
    rw [hhmm_2359] at hen
    have : (1439 : Int) = en := by simpa [toExcept] using hen
    exact this.symm

lemma parseVehicles_ok :
    ∀ (l : List RawVehicle) (out : List Vehicle),
      parseVehicles l = Except.ok out →
      out.length = l.length ∧
      ∀ i, i < l.length →
        parseVehicle (l.getD i dummyRawVehicle)
          = Except.ok (out.getD i dummyVehicle)
  | [], out, h => by
    have : out = [] := by
      simpa [parseVehicles] using h.symm
    subst this
    exact ⟨rfl, fun i hi => absurd hi (by simp)⟩
  | v :: rest, out, h => by
    simp only [parseVehicles] at h
    obtain ⟨pv, hpv, h2⟩ := except_bind_ok _ _ _ h
    obtain ⟨more, hmore, h3⟩ := except_bind_ok _ _ _ h2
    have hout : out = pv :: more := by
      simpa [pure, Except.pure] using h3.symm
    subst hout
    obtain ⟨hlen, hidx⟩ := parseVehicles_ok rest more hmore
    refine ⟨by simp [hlen], ?_⟩
    intro i hi
    cases i with
    | zero => simpa using hpv
    | succ j =>
      have hj : j < rest.length := by simpa using hi
      simpa using hidx j hj

/-- C9: `parse_request` applies each documented default independently of
the other fields — a vehicle without `capacity` gets the large sentinel
999999, a vehicle without `start_time` gets minute 0, one without
`end_time` gets minute 1439 (00:00–23:59), an omitted `objective` becomes
`min_cost`, an omitted `include_tolls` becomes `true` — each conditioned
only on its own field being omitted. -/
theorem c9_parse_request_defaults (g : String → Option (Rat × Rat))
    (p : RawPayload) (req : OptimizeRequest)
    (hp : parse_request g p = Except.ok req) :
    (p.objective = none → req.objective = "min_cost")
    ∧ (p.include_tolls = none → req.include_tolls = true)
    ∧ req.vehicles.length = p.vehicles.length
    ∧ ∀ i, i < p.vehicles.length →
        ((p.vehicles.getD i dummyRawVehicle).capacity = none →
          (req.vehicles.getD i dummyVehicle).capacity = 999999)
        ∧ ((p.vehicles.getD i dummyRawVehicle).start_time = none →
          (req.vehicles.getD i dummyVehicle).start_min = 0)
        ∧ ((p.vehicles.getD i dummyRawVehicle).end_time = none →
          (req.vehicles.getD i dummyVehicle).end_min = 1439) := by
  simp only [parse_request] at hp
  obtain ⟨d, hd, hp2⟩ := except_bind_ok _ _ _ hp
  obtain ⟨vs, hvs, hp3⟩ := except_bind_ok _ _ _ hp2
  obtain ⟨ss, hss, hp4⟩ := except_bind_ok _ _ _ hp3
  have hreq : req = { depot := d, vehicles := vs, stops := ss,
                      objective := p.objective.getD "min_cost",
                      include_tolls := p.include_tolls.getD true } := by
    simpa [pure, Except.pure] using hp4.symm
  subst hreq
  obtain ⟨hlen, hidx⟩ := parseVehicles_ok p.vehicles vs hvs
  refine ⟨fun h => by simp [h], fun h => by simp [h], hlen, ?_⟩
  intro i hi
  obtain ⟨hid, hcap, hstart, hend, hsf⟩ :=
    parseVehicle_fields _ _ (hidx i hi)
  exact ⟨fun hc => by rw [hcap, hc]; rfl, hstart, hend⟩

/-- Payload exercising the defaults independently: V1 omits every optional
field, V2 omits only `capacity` while supplying its operating hours, and
`include_tolls` is supplied while `objective` is omitted. -/
def c9Payload : RawPayload :=
  { depot := { lat := some 1, lon := some 1, address := none, endereco := none,
               start_window := none, end_window := none },
    vehicles := [{ id := "V1", capacity := none, start_time := none,
                   end_time := none, speed_factor := none },
                 { id := "V2", capacity := none, start_time := some "08:00",
                   end_time := some "18:00", speed_factor := some 2 }],
    stops := [mkRawStop "S1" none],
    objective := none, include_tolls := some false }

def c9Parsed : OptimizeRequest :=
  { depot := mkDepot,
    vehicles := [{ id := "V1", capacity := 999999, start_min := 0,
                   end_min := 1439, speed_factor := 1 },
                 { id := "V2", capacity := 999999, start_min := 480,
                   end_min := 1080, speed_factor := 2 }],
    stops := [mkStop "S1"], objective := "min_cost", include_tolls := false }

/-- Witness for C9: one vehicle with all optional fields omitted and one
omitting only `capacity`; `objective` omitted while `include_tolls` is
given. -/
theorem c9_witness :
    (parse_request (fun _ => none) c9Payload = Except.ok c9Parsed)
    ∧ ((c9Payload.objective = none → c9Parsed.objective = "min_cost")
      ∧ (c9Payload.include_tolls = none → c9Parsed.include_tolls = true)
      ∧ c9Parsed.vehicles.length = c9Payload.vehicles.length
      ∧ ∀ i, i < c9Payload.vehicles.length →
          ((c9Payload.vehicles.getD i dummyRawVehicle).capacity = none →
            (c9Parsed.vehicles.getD i dummyVehicle).capacity = 999999)
          ∧ ((c9Payload.vehicles.getD i dummyRawVehicle).start_time = none →
            (c9Parsed.vehicles.getD i dummyVehicle).start_min = 0)
          ∧ ((c9Payload.vehicles.getD i dummyRawVehicle).end_time = none →
            (c9Parsed.vehicles.getD i dummyVehicle).end_min = 1439)) :=
  ⟨rfl, c9_parse_request_defaults (fun _ => none) c9Payload c9Parsed rfl⟩

/-! ### Claim C4 -/

lemma forceLoop_ok_shape (solveFn : SolveInput → SolveResult)
    (req : OptimizeRequest) (tAll dAll : List (List Rat))
    (sbv : PyDict (List Stop))
    (hsolve : ∀ inp r t1 t2, solveFn inp = SolveResult.ok r t1 t2 →
      r.length = inp.vehicles.length) :
    ∀ (items : List (String × Vehicle)) (rs : List RouteOut) (tt td : Rat),
      forceLoop solveFn req tAll dAll sbv items = Except.ok (rs, tt, td) →
      rs.map (·.vehicle_id) = items.map (fun p => p.2.id)
      ∧ ∀ i, i < items.length →
          ((pyGet? sbv ((items.getD i ("", dummyVehicle)).1)).getD []) = [] →
          rs.getD i dummyRoute
            = trivialRoute ((items.getD i ("", dummyVehicle)).2.id)
  | [], rs, tt, td, h => by
    simp only [forceLoop, Except.ok.injEq, Prod.mk.injEq] at h
    refine ⟨by rw [← h.1]; rfl, ?_⟩
    intro i hi
    exact absurd hi (by simp)
  | (vid, v) :: rest, rs, tt, td, h => by
    simp only [forceLoop] at h
    by_cases hsub : ((pyGet? sbv vid).getD []).isEmpty
    · rw [if_pos hsub] at h
      cases hrec : forceLoop solveFn req tAll dAll sbv rest with
      | error r => rw [hrec] at h; simp at h
      | ok trip =>
        obtain ⟨rs', tt', td'⟩ := trip
        rw [hrec] at h
        simp only [Except.ok.injEq, Prod.mk.injEq] at h
        obtain ⟨hrs, htt, htd⟩ := h
        obtain ⟨ih1, ih2⟩ := forceLoop_ok_shape solveFn req tAll dAll sbv
          hsolve rest rs' tt' td' hrec
        refine ⟨by rw [← hrs]; simp [trivialRoute, ih1], ?_⟩
        intro i hi hempty
        cases i with
        | zero => rw [← hrs]; rfl
        | succ j =>
          have hj : j < rest.length := by simpa using hi
          have := ih2 j hj (by simpa using hempty)
          rw [← hrs]
          simpa using this
    · rw [if_neg hsub] at h
      cases hcall : solveFn (slice_and_solve req tAll dAll
          ((pyGet? sbv vid).getD []) [vehDef v]) with
      | infeasible => rw [hcall] at h; simp at h
      | ok rroutes t1 t2 =>
        rw [hcall] at h
        cases hrec : forceLoop solveFn req tAll dAll sbv rest with
        | error r => rw [hrec] at h; simp at h
        | ok trip =>
          obtain ⟨rs', tt', td'⟩ := trip
          rw [hrec] at h
          simp only [Except.ok.injEq, Prod.mk.injEq] at h
          obtain ⟨hrs, htt, htd⟩ := h
          have hlen1 : rroutes.length = 1 := by
            simpa using hsolve _ _ _ _ hcall
          obtain ⟨r0, hr0⟩ := List.length_eq_one.mp hlen1
          subst hr0
          obtain ⟨ih1, ih2⟩ := forceLoop_ok_shape solveFn req tAll dAll sbv
            hsolve rest rs' tt' td' hrec
          refine ⟨by rw [← hrs]; simp [postRoute, ih1], ?_⟩
          intro i hi hempty
          cases i with
          | zero =>
            exfalso
            have : ((pyGet? sbv vid).getD []) = [] := by simpa using hempty
            rw [this] at hsub
            exact hsub (by simp)
          | succ j =>
            have hj : j < rest.length := by simpa using hi
            have := ih2 j hj (by simpa using hempty)
            rw [← hrs]
            simpa using this

/-- C4: a successful optimize response has exactly one route entry per
request vehicle, in order (its `vehicle_id`s are the request's vehicle
ids), and every vehicle whose assigned subset is empty gets the trivial
route `nodes = nodes_abs = [0,0]`, `time_min = 0`, `dist_km = 0`.
`hsolve` records that the solver returns one route per vehicle of its
input, as `solve_vrptw` does. -/
theorem c4_one_route_per_vehicle (solveFn : SolveInput → SolveResult)
    (req : OptimizeRequest) (raw_stops : List RawStop)
    (tAll dAll : List (List Rat)) (routes : List RouteOut) (tt td : Rat)
    (hnd : (req.vehicles.map (·.id)).Nodup)
    (hsolve : ∀ inp r t1 t2, solveFn inp = SolveResult.ok r t1 t2 →
      r.length = inp.vehicles.length)
    (hok : optimizeCore solveFn req raw_stops tAll dAll
      = OptimizeResponse.ok routes tt td) :
    routes.map (·.vehicle_id) = req.vehicles.map (·.id)
    ∧ ∀ i, i < req.vehicles.length →
        ((pyGet? (stopsByVehicle req raw_stops)
          ((req.vehicles.getD i dummyVehicle).id)).getD []) = [] →
        routes.getD i dummyRoute
          = trivialRoute ((req.vehicles.getD i dummyVehicle).id) := by
  unfold optimizeCore at hok
  cases hfl : forceLoop solveFn req tAll dAll (stopsByVehicle req raw_stops)
      (vehById req.vehicles) with
  | error r => rw [hfl] at hok; simp at hok
  | ok trip =>
    obtain ⟨rs, t1, t2⟩ := trip
    rw [hfl] at hok
    simp only [OptimizeResponse.ok.injEq] at hok
    obtain ⟨hrs, _, _⟩ := hok
    subst hrs
    have hvb : vehById req.vehicles = req.vehicles.map (fun v => (v.id, v)) := by
      unfold vehById
      apply dictOfPairs_of_nodupKeys
      simpa [List.map_map, Function.comp] using hnd
    rw [hvb] at hfl
    obtain ⟨h1, h2⟩ := forceLoop_ok_shape solveFn req tAll dAll
      (stopsByVehicle req raw_stops) hsolve _ _ _ _ hfl
    constructor
    · rw [h1, List.map_map]
      rfl
    · intro i hi hempty
      have hlen : i < (req.vehicles.map (fun v => (v.id, v))).length := by
        simpa using hi
      have hget : (req.vehicles.map (fun v => (v.id, v))).getD i
          ("", dummyVehicle) = ((req.vehicles.getD i dummyVehicle).id,
            req.vehicles.getD i dummyVehicle) := by
        rw [List.getD_eq_getElem _ _ hlen, List.getElem_map,
          List.getD_eq_getElem _ _ hi]
      have := h2 i hlen (by rw [hget]; exact hempty)
      rw [hget] at this
      exact this

def c4SolveFn : SolveInput → SolveResult :=
  fun inp => SolveResult.ok (inp.vehicles.map (fun vd =>
    { vehicle_id := vd.id, nodes := [0, 0], time_min := 0, dist_km := 0 })) 0 0

/-- Witness for C4: two vehicles, no stops; both subsets are empty and the
response holds exactly the two trivial routes, in vehicle order. -/
theorem c4_witness :
    ((((mkReq [mkVehicle "V1", mkVehicle "V2"] []).vehicles.map (·.id)).Nodup)
      ∧ optimizeCore c4SolveFn (mkReq [mkVehicle "V1", mkVehicle "V2"] []) [] [] []
          = OptimizeResponse.ok [trivialRoute "V1", trivialRoute "V2"] 0 0)
    ∧ ([trivialRoute "V1", trivialRoute "V2"].map (·.vehicle_id)
        = (mkReq [mkVehicle "V1", mkVehicle "V2"] []).vehicles.map (·.id)
      ∧ ∀ i, i < (mkReq [mkVehicle "V1", mkVehicle "V2"] []).vehicles.length →
          ((pyGet? (stopsByVehicle (mkReq [mkVehicle "V1", mkVehicle "V2"] []) [])
            (((mkReq [mkVehicle "V1", mkVehicle "V2"] []).vehicles.getD i
              dummyVehicle).id)).getD []) = [] →
          ([trivialRoute "V1", trivialRoute "V2"] : List RouteOut).getD i dummyRoute
            = trivialRoute (((mkReq [mkVehicle "V1", mkVehicle "V2"] []).vehicles.getD
                i dummyVehicle).id)) :=
  ⟨⟨by decide, by decide⟩,
    c4_one_route_per_vehicle c4SolveFn (mkReq [mkVehicle "V1", mkVehicle "V2"] [])
      [] [] [] [trivialRoute "V1", trivialRoute "V2"] 0 0 (by decide)
      (by intro inp r t1 t2 h; cases h; simp) (by decide)⟩

/-! ### Claim C7 -/

/-- The stops the `rr_partition` loop sends to key `k`, starting the
enumeration at `i0` (the loop's bucket key for index `i` is
`vid_list[i % len(vid_list)]`). -/
def rrSelect (vids : List String) : List Stop → Nat → String → List Stop
  | [], _, _ => []
  | s :: rest, i, k =>
    (if vids.getD (i % vids.length) "" = k then [s] else [])
      ++ rrSelect vids rest (i + 1) k

/-- The claim's reading of round-robin: stop `i` goes to vehicle index
`i % V`. -/
def modSelect : List Stop → Nat → Nat → Nat → List Stop
  | [], _, _, _ => []
  | s :: rest, V, kk, i =>
    (if i % V = kk then [s] else []) ++ modSelect rest V kk (i + 1)

lemma rrGo_get_of_some (vids : List String) (k : String) :
    ∀ (stops : List Stop) (i0 : Nat) (acc : PyDict (List Stop))
      (l : List Stop), pyGet? acc k = some l →
      pyGet? (rrGo stops vids i0 acc) k
        = some (l ++ rrSelect vids stops i0 k)
  | [], i0, acc, l, hl => by simpa [rrGo, rrSelect] using hl
  | s :: rest, i0, acc, l, hl => by
    simp only [rrGo, rrSelect]
    by_cases hkey : vids.getD (i0 % vids.length) "" = k
    · have hstep : pyGet? (pyAppendAt acc (vids.getD (i0 % vids.length) "") s) k
          = some (l ++ [s]) := by
        rw [pyGet?_pyAppendAt]
        rw [if_pos hkey.symm] at *
        rw [hkey, hl]
        rfl
      rw [rrGo_get_of_some vids k rest (i0 + 1) _ (l ++ [s]) hstep, hkey]
      simp
    · have hstep : pyGet? (pyAppendAt acc (vids.getD (i0 % vids.length) "") s) k
          = some l := by
        rw [pyGet?_pyAppendAt, if_neg (fun hh => hkey hh.symm)]
        exact hl
      rw [rrGo_get_of_some vids k rest (i0 + 1) _ l hstep, if_neg hkey]
      simp

lemma rrSelect_eq_modSelect (vids : List String) (hnd : vids.Nodup)
    (kk : Nat) (hk : kk < vids.length) :
    ∀ (stops : List Stop) (i0 : Nat),
      rrSelect vids stops i0 (vids.getD kk "")
        = modSelect stops vids.length kk i0
  | [], _ => rfl
  | s :: rest, i0 => by
    have hV : 0 < vids.length := Nat.pos_of_ne_zero (by omega)
    have hm : i0 % vids.length < vids.length := Nat.mod_lt _ hV
    have hcond : (vids.getD (i0 % vids.length) "" = vids.getD kk "")
        ↔ (i0 % vids.length = kk) := by
      rw [List.getD_eq_getElem _ _ hm, List.getD_eq_getElem _ _ hk]
      constructor
      · intro h
        have := (List.Nodup.get_inj_iff hnd
          (i := ⟨i0 % vids.length, hm⟩) (j := ⟨kk, hk⟩)).mp (by simpa using h)
        simpa using this
      · intro h; simp [h]
    simp only [rrSelect, modSelect]
    rw [rrSelect_eq_modSelect vids hnd kk hk rest (i0 + 1)]
    by_cases h : i0 % vids.length = kk
    · rw [if_pos (hcond.mpr h), if_pos h]
    · rw [if_neg (fun hh => h (hcond.mp hh)), if_neg h]

lemma modSelect_append (V kk : Nat) (s : Stop) :
    ∀ (stops : List Stop) (i0 : Nat),
      modSelect (stops ++ [s]) V kk i0
        = modSelect stops V kk i0
          ++ (if (i0 + stops.length) % V = kk then [s] else [])
  | [], i0 => by simp [modSelect]
  | t :: rest, i0 => by
    simp only [List.cons_append, modSelect, List.append_eq]
    rw [modSelect_append V kk s rest (i0 + 1)]
    have : i0 + 1 + rest.length = i0 + (rest.length + 1) := by omega
    rw [this]
    simp [List.append_assoc]

lemma modCountStep (V q r kk : Nat) (hV : 0 < V) (hr : r < V) (hkk : kk < V) :
    (q + if kk < r then 1 else 0) + (if r = kk then 1 else 0)
      = (V * q + (r + 1)) / V
        + if kk < (V * q + (r + 1)) % V then 1 else 0 := by
  rw [Nat.mul_add_div hV, Nat.mul_add_mod]
  by_cases h1 : r + 1 = V
  · rw [h1]
    simp only [Nat.div_self hV, Nat.mod_self]
    split_ifs <;> omega
  · have h2 : r + 1 < V := by omega
    rw [Nat.div_eq_of_lt h2, Nat.mod_eq_of_lt h2]
    split_ifs <;> omega

lemma modSelect_length (V kk : Nat) (hkk : kk < V) (stops : List Stop) :
    (modSelect stops V kk 0).length
      = stops.length / V + if kk < stops.length % V then 1 else 0 := by
  have hV : 0 < V := by omega
  induction stops using List.reverseRecOn with
  | nil => simp [modSelect, Nat.zero_div, Nat.zero_mod]
  | append_singleton l s ih =>
    rw [modSelect_append, List.length_append, ih, List.length_append]
    simp only [Nat.zero_add, List.length_singleton]
    have hr : l.length % V < V := Nat.mod_lt _ hV
    have hqr : V * (l.length / V) + l.length % V = l.length :=
      Nat.div_add_mod l.length V
    have hstep := modCountStep V (l.length / V) (l.length % V) kk hV hr hkk
    have hn1 : V * (l.length / V) + (l.length % V + 1) = l.length + 1 := by
      omega
    rw [hn1] at hstep
    rw [← hstep]
    split_ifs <;> simp

/-- C7: with no explicit assignments, `rr_partition` puts stop `i` (in
request order) into the bucket of vehicle `i mod len(vehicles)` — the
bucket of the `kk`-th vehicle id is exactly the stops whose index is
congruent to `kk` — and consequently any two buckets' sizes differ by at
most one. -/
theorem c7_round_robin_mod (stops : List Stop) (vids : List String)
    (hnd : vids.Nodup) (kk : Nat) (hk : kk < vids.length) :
    pyGet? (rr_partition stops vids) (vids.getD kk "")
      = some (modSelect stops vids.length kk 0)
    ∧ ∀ k2, k2 < vids.length →
        (modSelect stops vids.length kk 0).length
          ≤ (modSelect stops vids.length k2 0).length + 1 := by
  constructor
  · have hmem : vids.getD kk "" ∈ vids := by
      rw [List.getD_eq_getElem _ _ hk]
      exact List.getElem_mem _
    have hinit : pyGet? (dictOfPairs (vids.map (fun vid => (vid, ([] : List Stop)))))
        (vids.getD kk "") = some [] := by
      rw [pyGet?_dictOfPairs_const, if_pos hmem]
    unfold rr_partition
    by_cases hs : stops.isEmpty
    · rw [if_pos hs]
      have : stops = [] := by simpa [List.isEmpty_iff] using hs
      rw [this]
      simpa [modSelect] using hinit
    · rw [if_neg hs]
      rw [rrGo_get_of_some vids (vids.getD kk "") stops 0 _ [] hinit]
      rw [rrSelect_eq_modSelect vids hnd kk hk stops 0]
      simp
  · intro k2 hk2
    rw [modSelect_length vids.length kk hk stops,
      modSelect_length vids.length k2 hk2 stops]
    split_ifs <;> omega

/-- Witness for C7: three stops over two vehicles; the first bucket gets
stops 0 and 2, and the size bound holds. -/
theorem c7_witness :
    (["VA", "VB"].Nodup ∧ 0 < (["VA", "VB"] : List String).length)
    ∧ (pyGet? (rr_partition [mkStop "S1", mkStop "S2", mkStop "S3"] ["VA", "VB"])
        ((["VA", "VB"] : List String).getD 0 "")
        = some (modSelect [mkStop "S1", mkStop "S2", mkStop "S3"]
            (["VA", "VB"] : List String).length 0 0)
      ∧ ∀ k2, k2 < (["VA", "VB"] : List String).length →
          (modSelect [mkStop "S1", mkStop "S2", mkStop "S3"]
            (["VA", "VB"] : List String).length 0 0).length
            ≤ (modSelect [mkStop "S1", mkStop "S2", mkStop "S3"]
                (["VA", "VB"] : List String).length k2 0).length + 1) :=
  ⟨⟨by decide, by decide⟩,
    c7_round_robin_mod [mkStop "S1", mkStop "S2", mkStop "S3"] ["VA", "VB"]
      (by decide) 0 (by decide)⟩

/-! ### Claim C10 -/

lemma map_scrub_id (l : List Vehicle) :
    (l.map scrubV).map (·.id) = l.map (·.id) := by
  induction l with
  | nil => rfl
  | cons v rest ih => simp only [List.map_cons, ih]; rfl

lemma stopsByVehicle_scrub (req : OptimizeRequest) (raw_stops : List RawStop) :
    stopsByVehicle { req with vehicles := req.vehicles.map scrubV } raw_stops
      = stopsByVehicle req raw_stops := by
  unfold stopsByVehicle
  rw [show ({ req with vehicles := req.vehicles.map scrubV } :
      OptimizeRequest).stops = req.stops from rfl]
  rw [show ({ req with vehicles := req.vehicles.map scrubV } :
      OptimizeRequest).vehicles = req.vehicles.map scrubV from rfl]
  rw [map_scrub_id]

lemma pyHasKey_mapValues {α : Type} (g : α → α) (k : String) :
    ∀ d : PyDict α,
      pyHasKey (d.map (fun p => (p.1, g p.2))) k = pyHasKey d k
  | [] => rfl
  | p :: rest => by
    rw [List.map_cons, pyHasKey_cons, pyHasKey_cons]
    by_cases h : p.1 = k <;>
      simp [h, pyHasKey_mapValues g k rest]

lemma pyInsert_mapValues {α : Type} (g : α → α) (d : PyDict α) (k : String)
    (v : α) :
    (pyInsert d k v).map (fun p => (p.1, g p.2))
      = pyInsert (d.map (fun p => (p.1, g p.2))) k (g v) := by
  unfold pyInsert
  rw [pyHasKey_mapValues]
  by_cases hk : pyHasKey d k
  · rw [if_pos hk, if_pos hk, List.map_map, List.map_map]
    apply List.map_congr_left
    intro p _
    by_cases h : p.1 = k <;> simp [h, Function.comp]
  · rw [if_neg hk, if_neg hk, List.map_append]
    rfl

lemma dictOfPairs_mapValues {α : Type} (g : α → α) :
    ∀ (ps : List (String × α)) (acc : PyDict α),
      List.foldl (fun d p => pyInsert d p.1 p.2)
          (acc.map (fun p => (p.1, g p.2)))
          (ps.map (fun p => (p.1, g p.2)))
        = (List.foldl (fun d p => pyInsert d p.1 p.2) acc ps).map
            (fun p => (p.1, g p.2))
  | [], acc => by simp
  | p :: rest, acc => by
    simp only [List.map_cons, List.foldl_cons]
    rw [← pyInsert_mapValues]
    exact dictOfPairs_mapValues g rest (pyInsert acc p.1 p.2)

lemma dictOfPairs_mapValues_nil {α : Type} (g : α → α)
    (ps : List (String × α)) :
    dictOfPairs (ps.map (fun p => (p.1, g p.2)))
      = (dictOfPairs ps).map (fun p => (p.1, g p.2)) := by
  unfold dictOfPairs
  simpa using dictOfPairs_mapValues g ps []

lemma vehById_scrub (l : List Vehicle) :
    vehById (l.map scrubV)
      = (vehById l).map (fun p => (p.1, scrubV p.2)) := by
  unfold vehById
  have h0 : (l.map scrubV).map (fun v => (v.id, v))
      = (l.map (fun v => (v.id, v))).map (fun p => (p.1, scrubV p.2)) := by
    rw [List.map_map, List.map_map]
    rfl
  rw [h0]
  exact dictOfPairs_mapValues_nil scrubV (l.map (fun v => (v.id, v)))

lemma forceLoop_scrub (solveFn : SolveInput → SolveResult)
    (req : OptimizeRequest) (w : List Vehicle) (tAll dAll : List (List Rat))
    (sbv : PyDict (List Stop)) :
    ∀ items : List (String × Vehicle),
      forceLoop solveFn { req with vehicles := w } tAll dAll sbv
          (items.map (fun p => (p.1, scrubV p.2)))
        = forceLoop solveFn req tAll dAll sbv items
  | [] => rfl
  | (vid, v) :: rest => by
    simp only [List.map_cons, forceLoop,
      forceLoop_scrub solveFn req w tAll dAll sbv rest]
    rfl

/-- `optimizeCore` is unchanged when every vehicle's `speed_factor` is
replaced: the field is parsed but never reaches `solve_vrptw`. -/
lemma optimizeCore_scrub (solveFn : SolveInput → SolveResult)
    (req : OptimizeRequest) (raw_stops : List RawStop)
    (tAll dAll : List (List Rat)) :
    optimizeCore solveFn { req with vehicles := req.vehicles.map scrubV }
        raw_stops tAll dAll
      = optimizeCore solveFn req raw_stops tAll dAll := by
  unfold optimizeCore
  rw [stopsByVehicle_scrub req raw_stops]
  rw [show ({ req with vehicles := req.vehicles.map scrubV } :
      OptimizeRequest).vehicles = req.vehicles.map scrubV from rfl]
  rw [vehById_scrub]
  rw [forceLoop_scrub solveFn req (req.vehicles.map scrubV) tAll dAll
    (stopsByVehicle req raw_stops) (vehById req.vehicles)]

/-- C10: the solve outcome is independent of the vehicles' `speed_factor`.
Two requests identical except for (positive) `speed_factor` values produce
identical responses — routes, node sequences, `time_min`, `dist_km` —
because `speed_factor` is parsed but never passed into `solve_vrptw`. -/
theorem c10_speed_factor_independent (solveFn : SolveInput → SolveResult)
    (req1 req2 : OptimizeRequest) (raw_stops : List RawStop)
    (tAll dAll : List (List Rat))
    (hveh : req1.vehicles.map scrubV = req2.vehicles.map scrubV)
    (hdep : req1.depot = req2.depot) (hst : req1.stops = req2.stops)
    (hobj : req1.objective = req2.objective)
    (htoll : req1.include_tolls = req2.include_tolls)
    (hpos1 : ∀ v ∈ req1.vehicles, 0 < v.speed_factor)
    (hpos2 : ∀ v ∈ req2.vehicles, 0 < v.speed_factor) :
    optimizeCore solveFn req1 raw_stops tAll dAll
      = optimizeCore solveFn req2 raw_stops tAll dAll := by
  rw [← optimizeCore_scrub solveFn req1 raw_stops tAll dAll,
    ← optimizeCore_scrub solveFn req2 raw_stops tAll dAll]
  cases req1
  cases req2
  simp only at hveh hdep hst hobj htoll
  simp [hveh, hdep, hst, hobj, htoll]

def c10Req1 : OptimizeRequest := mkReq [mkVehicle "V1"] [mkStop "S1"]

def c10Req2 : OptimizeRequest :=
  mkReq [{ mkVehicle "V1" with speed_factor := 2 }] [mkStop "S1"]

/-- Witness for C10 at two concrete requests differing only in
`speed_factor` (1 versus 2). -/
theorem c10_witness :
    (c10Req1.vehicles.map scrubV = c10Req2.vehicles.map scrubV
      ∧ c10Req1.depot = c10Req2.depot ∧ c10Req1.stops = c10Req2.stops
      ∧ c10Req1.objective = c10Req2.objective
      ∧ c10Req1.include_tolls = c10Req2.include_tolls
      ∧ (∀ v ∈ c10Req1.vehicles, 0 < v.speed_factor)
      ∧ (∀ v ∈ c10Req2.vehicles, 0 < v.speed_factor))
    ∧ optimizeCore (fun _ => SolveResult.infeasible) c10Req1 [] [] []
        = optimizeCore (fun _ => SolveResult.infeasible) c10Req2 [] [] [] :=
  ⟨⟨by decide, by decide, by decide, by decide, by decide, by decide, by decide⟩,
    c10_speed_factor_independent (fun _ => SolveResult.infeasible) c10Req1
      c10Req2 [] [] [] (by decide) (by decide) (by decide) (by decide)
      (by decide) (by decide) (by decide)⟩

/-! ### Claim C3 -/

lemma flatMap_map {α β γ : Type} (f : α → β) (g : β → List γ) :
    ∀ l : List α, (l.map f).flatMap g = l.flatMap (fun a => g (f a))
  | [] => rfl
  | a :: rest => by simp [flatMap_map f g rest]

lemma zip_flatMap_snd {α β γ : Type} (g : β → List γ) :
    ∀ (l1 : List α) (l2 : List β), l1.length = l2.length →
      (l1.zip l2).flatMap (fun pr => g pr.2) = l2.flatMap g
  | [], [], _ => rfl
  | [], b :: bs, h => by simp at h
  | a :: as, [], h => by simp at h
  | a :: as, b :: bs, h => by
    simp only [List.zip_cons_cons, List.flatMap_cons]
    rw [zip_flatMap_snd g as bs (by simpa using h)]

lemma tail_map {α β : Type} (f : α → β) :
    ∀ l : List α, (l.map f).tail = l.tail.map f
  | [] => rfl
  | _ :: _ => rfl

lemma flatMap_congr_mem {α β : Type} (f g : α → List β) :
    ∀ l : List α, (∀ a ∈ l, f a = g a) → l.flatMap f = l.flatMap g
  | [], _ => rfl
  | a :: rest, h => by
    simp only [List.flatMap_cons]
    rw [h a (List.mem_cons_self a rest),
      flatMap_congr_mem f g rest (fun b hb => h b (List.mem_cons_of_mem a hb))]

/-- C3: on a feasible solve, every extracted route's `nodes` sequence
begins and ends at the depot index 0, and — across all vehicles of the
solve — the nodes strictly between first and last are exactly the stop
nodes `1..n-1`, each exactly once.  The hypotheses record what the
OR-Tools assignment guarantees for a routing model in which every node is
mandatory: one walk per vehicle, starting at a `Start` index and ending at
an `End` index (both mapped to the depot by `IndexToNode`), the walks'
interiors jointly visiting every non-depot node exactly once. -/
theorem c3_routes_round_trip (inp : SolveInput) (sol : RawSolution)
    (hlen : sol.paths.length = inp.vehicles.length)
    (hne : ∀ p ∈ sol.paths, p.visited ≠ [])
    (hstart : ∀ p ∈ sol.paths, sol.indexToNode p.visited.headI = 0)
    (hend : ∀ p ∈ sol.paths, sol.indexToNode p.endIdx = 0)
    (hcover : (sol.paths.flatMap
        (fun p => p.visited.tail.map sol.indexToNode)).Perm
      (List.range' 1 (inp.time_matrix_min.length - 1))) :
    ∃ routes tt td,
      solve_vrptw inp (some sol) = SolveResult.ok routes tt td
      ∧ (∀ r ∈ routes, r.nodes.head? = some 0 ∧ r.nodes.getLast? = some 0)
      ∧ (routes.flatMap (fun r => r.nodes.dropLast.tail)).Perm
          (List.range' 1 (inp.time_matrix_min.length - 1)) := by
  refine ⟨_, _, _, rfl, ?_, ?_⟩
  · intro r hr
    obtain ⟨pr, hpr, hre⟩ := List.mem_map.mp hr
    obtain ⟨vd, p⟩ := pr
    have hpmem : p ∈ sol.paths := (List.of_mem_zip hpr).2
    obtain ⟨x, xs, hvis⟩ := List.exists_cons_of_ne_nil (hne p hpmem)
    have h0 := hstart p hpmem
    rw [hvis] at h0
    simp only [List.headI_cons] at h0
    constructor
    · rw [← hre]
      simp [extractRoute1, hvis, h0]
    · rw [← hre]
      simp only [extractRoute1, List.getLast?_concat]
      rw [hend p hpmem]
  · have hroutes : (((inp.vehicles.zip sol.paths).map
        (fun pr => extractRoute1 inp sol pr.1 pr.2)).flatMap
          (fun r => r.nodes.dropLast.tail))
        = sol.paths.flatMap (fun p => p.visited.tail.map sol.indexToNode) := by
      rw [flatMap_map]
      have hcongr : ∀ pr : VehDef × VehiclePath,
          (extractRoute1 inp sol pr.1 pr.2).nodes.dropLast.tail
            = pr.2.visited.tail.map sol.indexToNode := by
        intro pr
        simp only [extractRoute1, List.dropLast_concat]
        exact tail_map sol.indexToNode pr.2.visited
      calc (inp.vehicles.zip sol.paths).flatMap
            (fun pr => (extractRoute1 inp sol pr.1 pr.2).nodes.dropLast.tail)
          = (inp.vehicles.zip sol.paths).flatMap
            (fun pr => pr.2.visited.tail.map sol.indexToNode) := by
            exact flatMap_congr_mem _ _ _ (fun pr _ => hcongr pr)
        _ = sol.paths.flatMap (fun p => p.visited.tail.map sol.indexToNode) :=
            zip_flatMap_snd (fun p => p.visited.tail.map sol.indexToNode)
              inp.vehicles sol.paths hlen.symm
    rw [hroutes]
    exact hcover

def c3Inp : SolveInput :=
  { time_matrix_min := [[0, 1, 1], [1, 0, 1], [1, 1, 0]],
    dist_matrix_km := [[0, 1, 1], [1, 0, 1], [1, 1, 0]],
    depot_index := 0, service_times := [0, 0, 0], demands := [0, 0, 0],
    time_windows := [(0, 1440), (0, 1440), (0, 1440)],
    vehicles := [{ id := "V1", capacity := 100, start_min := 0, end_min := 1440 }],
    objective := "min_cost" }

def c3Sol : RawSolution :=
  { paths := [{ visited := [0, 1, 2], endIdx := 3 }],
    indexToNode := fun i => if i = 3 then 0 else i }

/-- Witness for C3: one vehicle, two stops, walk depot → 1 → 2 → depot. -/
theorem c3_witness :
    (c3Sol.paths.length = c3Inp.vehicles.length
      ∧ (∀ p ∈ c3Sol.paths, p.visited ≠ [])
      ∧ (∀ p ∈ c3Sol.paths, c3Sol.indexToNode p.visited.headI = 0)
      ∧ (∀ p ∈ c3Sol.paths, c3Sol.indexToNode p.endIdx = 0)
      ∧ (c3Sol.paths.flatMap
          (fun p => p.visited.tail.map c3Sol.indexToNode)).Perm
        (List.range' 1 (c3Inp.time_matrix_min.length - 1)))
    ∧ (∃ routes tt td,
        solve_vrptw c3Inp (some c3Sol) = SolveResult.ok routes tt td
        ∧ (∀ r ∈ routes, r.nodes.head? = some 0 ∧ r.nodes.getLast? = some 0)
        ∧ (routes.flatMap (fun r => r.nodes.dropLast.tail)).Perm
            (List.range' 1 (c3Inp.time_matrix_min.length - 1))) :=
  ⟨⟨by decide, by decide, by decide, by decide, by decide⟩,
    c3_routes_round_trip c3Inp c3Sol (by decide) (by decide) (by decide)
      (by decide) (by decide)⟩

end OptiFleet
